import Mathlib

/-!
Shallow embedding of the turn-resolution control flow of
`agente_basico_hc_base_de_conocimiento.py`: the context builder, the tool
dispatch loop and the resolver `chat_con_agente`; the history-table
initialization `crear_tabla_historial`; and the session-selection step of
`main`. External collaborators (the model endpoint, the tool bodies, the
database driver, the UUID validator) are oracles passed in as arguments; a
raised exception of an external call is an `Except.error` value.
-/

namespace AgenteBasico

/-- One tool-invocation request produced by the model, with the fields the
resolver reads: `tool_call["name"]`, `tool_call["args"]`, `tool_call["id"]`. -/
structure ToolCall where
  name : String
  args : String
  id : String
deriving DecidableEq, Repr

/-- One model completion, with the fields the resolver reads:
`response.content` and `response.tool_calls`. -/
structure Response where
  content : String
  tool_calls : List ToolCall
deriving DecidableEq, Repr

/-- One registered tool: a name and a fallible invocation (`t.name` and
`t.invoke(tool_args)`); a raised exception of the tool body is `.error`. -/
structure Tool where
  name : String
  invoke : String → Except String String

/-- One message persisted in the history store: a `HumanMessage`, an
`AIMessage`, or a stored message of any other kind. -/
inductive StoredMsg where
  | human (content : String)
  | ai (content : String)
  | other (kind content : String)
deriving DecidableEq, Repr

/-- One entry of the `messages` list submitted to the model: the system
dict, a user or assistant role/content dict, the raw first response object
appended back, or a `ToolMessage` carrying a content and a tool_call_id. -/
inductive CtxMsg where
  | system (content : String)
  | user (content : String)
  | assistant (content : String)
  | aiResponse (resp : Response)
  | toolMsg (content : String) (tool_call_id : String)
deriving DecidableEq, Repr

/-- Body of the loop over `mensajes_previos`: a `HumanMessage` is appended
as a user entry, an `AIMessage` as an assistant entry, and a stored message
of any other kind is skipped (no isinstance branch matches it). -/
def addHistMsg (acc : List CtxMsg) (msg : StoredMsg) : List CtxMsg :=
  match msg with
  | .human c => acc ++ [CtxMsg.user c]
  | .ai c => acc ++ [CtxMsg.assistant c]
  | .other _ _ => acc

/-- Request context built for the first completion: the system prompt, the
stored history folded in order by `addHistMsg`, then the new utterance as
the final user entry. -/
def buildContext (systemPrompt : String) (prev : List StoredMsg)
    (utterance : String) : List CtxMsg :=
  (prev.foldl addHistMsg [CtxMsg.system systemPrompt]) ++ [CtxMsg.user utterance]

/-- Lookup of a tool by exact name, as the inner loop
`for t in tools: if t.name == tool_name: ...; break` does: the first
matching registry entry wins, a missing name yields nothing. -/
def lookupTool (ts : List Tool) (n : String) : Option Tool :=
  ts.find? (fun t => t.name == n)

/-- The tool-call loop of the resolver: for each request in order, look the
tool up by name; a request whose name matches nothing is skipped silently;
a found tool is invoked with the request arguments, and a raised invocation
error propagates at once. The first component collects the
`(tool_call_id, result)` pairs (or the propagated error); the second lists
the requests on which an invocation was actually performed. -/
def runToolCalls (ts : List Tool) :
    List ToolCall → Except String (List (String × String)) × List ToolCall
  | [] => (Except.ok [], [])
  | tc :: rest =>
    match lookupTool ts tc.name with
    | none => runToolCalls ts rest
    | some t =>
      match t.invoke tc.args with
      | .error e => (Except.error e, [tc])
      | .ok r =>
        ((runToolCalls ts rest).1.map (fun l => (tc.id, r) :: l),
          tc :: (runToolCalls ts rest).2)

/-- Augmented context submitted for the second completion: the first
context, then the raw first response appended back (`messages.append(response)`),
then one `ToolMessage` per collected result, in order. -/
def augmentedContext (base : List CtxMsg) (response : Response)
    (toolResults : List (String × String)) : List CtxMsg :=
  base ++ CtxMsg.aiResponse response
    :: toolResults.map (fun tr => CtxMsg.toolMsg tr.2 tr.1)

/-- Observable outcome of one call to the resolver: the returned reply or
the propagated exception, the history rows after the call, how many model
invocations were made, which requests were actually invoked, the context of
the first model call, and the augmented context of the second model call
when one was made. -/
structure RunResult where
  outcome : Except String String
  history : List StoredMsg
  modelCalls : Nat
  invoked : List ToolCall
  firstContext : List CtxMsg
  secondContext : Option (List CtxMsg)

/-- Shallow embedding of `chat_con_agente`: build the context from the
stored history and the new utterance, invoke the model, and if the
completion carries tool calls run them, append the raw response and one
`ToolMessage` per collected result, and invoke the model a second time; the
user utterance and the final reply are appended to the history only after
full success, so a raised exception anywhere leaves the history rows as
loaded. The model boundary is the oracle `model`. -/
def chatConAgente (model : List CtxMsg → Except String Response)
    (ts : List Tool) (systemPrompt mensajeUsuario : String)
    (hist : List StoredMsg) : RunResult :=
  match model (buildContext systemPrompt hist mensajeUsuario) with
  | .error e =>
    { outcome := .error e, history := hist, modelCalls := 1, invoked := [],
      firstContext := buildContext systemPrompt hist mensajeUsuario,
      secondContext := none }
  | .ok response =>
    if response.tool_calls.isEmpty then
      { outcome := .ok response.content,
        history := hist ++ [.human mensajeUsuario, .ai response.content],
        modelCalls := 1, invoked := [],
        firstContext := buildContext systemPrompt hist mensajeUsuario,
        secondContext := none }
    else
      match (runToolCalls ts response.tool_calls).1 with
      | .error e =>
        { outcome := .error e, history := hist, modelCalls := 1,
          invoked := (runToolCalls ts response.tool_calls).2,
          firstContext := buildContext systemPrompt hist mensajeUsuario,
          secondContext := none }
      | .ok toolResults =>
        match model (augmentedContext
            (buildContext systemPrompt hist mensajeUsuario) response toolResults) with
        | .error e =>
          { outcome := .error e, history := hist, modelCalls := 2,
            invoked := (runToolCalls ts response.tool_calls).2,
            firstContext := buildContext systemPrompt hist mensajeUsuario,
            secondContext := some (augmentedContext
              (buildContext systemPrompt hist mensajeUsuario) response toolResults) }
        | .ok finalResponse =>
          { outcome := .ok finalResponse.content,
            history := hist ++ [.human mensajeUsuario, .ai finalResponse.content],
            modelCalls := 2,
            invoked := (runToolCalls ts response.tool_calls).2,
            firstContext := buildContext systemPrompt hist mensajeUsuario,
            secondContext := some (augmentedContext
              (buildContext systemPrompt hist mensajeUsuario) response toolResults) }

/-- Observable outcome of the history-table initialization: what was
printed and whether an exception escaped to the caller. -/
structure InitResult where
  raised : Option String
  logged : List String
deriving DecidableEq, Repr

/-- Shallow embedding of `crear_tabla_historial`: connect, create the
tables, close; the whole body sits in a try/except that prints the
exception instead of re-raising. The fallible external steps are the
oracles `connect` and `createTables`. -/
def crearTablaHistorial (connect : Except String Unit)
    (createTables : Except String Unit) : InitResult :=
  match connect with
  | .error e => { raised := none, logged := ["⚠️ Nota sobre tabla: " ++ e] }
  | .ok _ =>
    match createTables with
    | .error e => { raised := none, logged := ["⚠️ Nota sobre tabla: " ++ e] }
    | .ok _ => { raised := none, logged := [] }

/-- Shallow embedding of the session-selection step of `main`: option "2"
validates the pasted candidate with `uuid.UUID` (the oracle `parseUUID`,
whose raised ValueError is `none`), and mints the fresh identifier
`freshId` (the value of `uuid.uuid4()`) when validation fails; any other
option mints directly. -/
def elegirSesion (parseUUID : String → Option Unit) (freshId : String)
    (opcion : String) (candidate : String) : String :=
  if opcion == "2" then
    match parseUUID candidate with
    | some _ => candidate
    | none => freshId
  else
    freshId

/-- Mapping of one stored turn to its role/content pair as the
specification words it: a user turn to a user entry, an assistant turn to
an assistant entry; a turn of any other kind has no pair. -/
def roleContentPair (msg : StoredMsg) : Option CtxMsg :=
  match msg with
  | .human c => some (CtxMsg.user c)
  | .ai c => some (CtxMsg.assistant c)
  | .other _ _ => none

/-- Registry entry standing for `buscar_datapath`, with a stubbed body used
only to run the resolver on concrete inputs. -/
def demoTool : Tool :=
  { name := "buscar_datapath",
    invoke := fun _ => Except.ok "DATAPATH ofrece programas de IA" }

/-- Concrete invocation request for the registered lookup tool. -/
def demoCall : ToolCall :=
  { name := "buscar_datapath", args := "cursos", id := "call_1" }

/-- Concrete first completion that requests one knowledge lookup. -/
def demoResp1 : Response := { content := "", tool_calls := [demoCall] }

/-- Concrete second completion carrying the final reply. -/
def demoResp2 : Response :=
  { content := "Tenemos cursos de IA", tool_calls := [] }

/-- Concrete model oracle: the short first context gets the completion
requesting the lookup, the augmented context gets the final reply. -/
def demoModel (ctx : List CtxMsg) : Except String Response :=
  if ctx.length ≤ 2 then Except.ok demoResp1 else Except.ok demoResp2

/-- Concrete completion with no invocation requests. -/
def directResp : Response :=
  { content := "Hola, soy DataBot", tool_calls := [] }

/-- Concrete model oracle that always answers directly. -/
def directModel (_ : List CtxMsg) : Except String Response :=
  Except.ok directResp

/-- Concrete model oracle whose every call raises. -/
def failModel (_ : List CtxMsg) : Except String Response :=
  Except.error "ModelInvocationError"

/-- Concrete invocation request naming no registered tool. -/
def unknownCall : ToolCall :=
  { name := "tool_desconocida", args := "x", id := "call_9" }

/-- Concrete first completion requesting only the unregistered name. -/
def unknownResp : Response := { content := "", tool_calls := [unknownCall] }

/-- Concrete model oracle whose first completion requests only the
unregistered name and whose second completion answers. -/
def cexModel (ctx : List CtxMsg) : Except String Response :=
  if ctx.length ≤ 2 then Except.ok unknownResp
  else Except.ok { content := "respuesta", tool_calls := [] }

/-- Concrete UUID oracle on which every parse raises. -/
def noParse (_ : String) : Option Unit := none

/-- Folding the history into an accumulator appends exactly the
role/content pairs of the user and assistant turns, in order. -/
theorem foldl_addHistMsg (prev : List StoredMsg) (acc : List CtxMsg) :
    prev.foldl addHistMsg acc = acc ++ prev.filterMap roleContentPair := by
  induction prev generalizing acc with
  | nil => simp
  | cons m rest ih =>
    cases m with
    | human c => simp [addHistMsg, roleContentPair, ih]
    | ai c => simp [addHistMsg, roleContentPair, ih]
    | other k c => simp [addHistMsg, roleContentPair, ih]

/-- Closed form of the request context: the system prompt, then the
role/content pairs of the stored turns in insertion order, then the new
utterance as the final user entry. -/
theorem buildContext_eq (sp : String) (prev : List StoredMsg) (u : String) :
    buildContext sp prev u
      = CtxMsg.system sp :: prev.filterMap roleContentPair ++ [CtxMsg.user u] := by
  simp [buildContext, foldl_addHistMsg]

/-- The requests on which the tool loop performs an invocation form a
sublist of the requests it was given. -/
theorem runToolCalls_invoked_sublist (ts : List Tool) (l : List ToolCall) :
    List.Sublist (runToolCalls ts l).2 l := by
  induction l with
  | nil => simp [runToolCalls]
  | cons tc rest ih =>
    rw [runToolCalls]
    split
    · exact ih.cons tc
    · split
      · simp
      · simpa using ih

/-- When the tool loop succeeds, the collected results carry exactly the
correlation identifiers of the performed invocations, in order. -/
theorem runToolCalls_ok_ids (ts : List Tool) (l : List ToolCall)
    (results : List (String × String))
    (h : (runToolCalls ts l).1 = Except.ok results) :
    results.map Prod.fst = (runToolCalls ts l).2.map ToolCall.id := by
  induction l generalizing results with
  | nil =>
    simp [runToolCalls] at h
    simp [runToolCalls, ← h]
  | cons tc rest ih =>
    rw [runToolCalls] at h ⊢
    split at h
    · exact ih results h
    · split at h
      · simp at h
      · cases hr : (runToolCalls ts rest).1 with
        | error e => rw [hr] at h; simp [Except.map] at h
        | ok l2 =>
          rw [hr] at h
          simp [Except.map] at h
          subst h
          simpa using ih l2 hr

/-- When no request matches any registered tool, the loop collects nothing,
performs no invocation, and does not fail. -/
theorem runToolCalls_all_unknown (ts : List Tool) (l : List ToolCall)
    (h : ∀ tc ∈ l, lookupTool ts tc.name = none) :
    runToolCalls ts l = (Except.ok [], []) := by
  induction l with
  | nil => rfl
  | cons tc rest ih =>
    rw [runToolCalls, h tc (List.mem_cons_self tc rest)]
    exact ih (fun x hx => h x (List.mem_cons_of_mem tc hx))

/-- Case analysis of one resolver call: the run ends in one of five shapes,
determined by the first model call, the presence of tool calls, the tool
loop, and the second model call. -/
theorem chatConAgente_cases (model : List CtxMsg → Except String Response)
    (ts : List Tool) (sp u : String) (hist : List StoredMsg) :
    (∃ e, model (buildContext sp hist u) = Except.error e ∧
      chatConAgente model ts sp u hist =
        { outcome := Except.error e, history := hist, modelCalls := 1,
          invoked := [], firstContext := buildContext sp hist u,
          secondContext := none })
  ∨ (∃ resp, model (buildContext sp hist u) = Except.ok resp ∧
      resp.tool_calls = [] ∧
      chatConAgente model ts sp u hist =
        { outcome := Except.ok resp.content,
          history := hist ++ [StoredMsg.human u, StoredMsg.ai resp.content],
          modelCalls := 1, invoked := [],
          firstContext := buildContext sp hist u, secondContext := none })
  ∨ (∃ resp e, model (buildContext sp hist u) = Except.ok resp ∧
      resp.tool_calls ≠ [] ∧
      (runToolCalls ts resp.tool_calls).1 = Except.error e ∧
      chatConAgente model ts sp u hist =
        { outcome := Except.error e, history := hist, modelCalls := 1,
          invoked := (runToolCalls ts resp.tool_calls).2,
          firstContext := buildContext sp hist u, secondContext := none })
  ∨ (∃ resp results e, model (buildContext sp hist u) = Except.ok resp ∧
      resp.tool_calls ≠ [] ∧
      (runToolCalls ts resp.tool_calls).1 = Except.ok results ∧
      model (augmentedContext (buildContext sp hist u) resp results)
        = Except.error e ∧
      chatConAgente model ts sp u hist =
        { outcome := Except.error e, history := hist, modelCalls := 2,
          invoked := (runToolCalls ts resp.tool_calls).2,
          firstContext := buildContext sp hist u,
          secondContext :=
            some (augmentedContext (buildContext sp hist u) resp results) })
  ∨ (∃ resp results resp2, model (buildContext sp hist u) = Except.ok resp ∧
      resp.tool_calls ≠ [] ∧
      (runToolCalls ts resp.tool_calls).1 = Except.ok results ∧
      model (augmentedContext (buildContext sp hist u) resp results)
        = Except.ok resp2 ∧
      chatConAgente model ts sp u hist =
        { outcome := Except.ok resp2.content,
          history := hist ++ [StoredMsg.human u, StoredMsg.ai resp2.content],
          modelCalls := 2,
          invoked := (runToolCalls ts resp.tool_calls).2,
          firstContext := buildContext sp hist u,
          secondContext :=
            some (augmentedContext (buildContext sp hist u) resp results) }) := by
  cases hm : model (buildContext sp hist u) with
  | error e =>
    refine Or.inl ⟨e, rfl, ?_⟩
    unfold chatConAgente
    rw [hm]
  | ok resp =>
    by_cases hte : resp.tool_calls = []
    · refine Or.inr (Or.inl ⟨resp, rfl, hte, ?_⟩)
      unfold chatConAgente
      rw [hm]
      simp [hte]
    · have hbe : resp.tool_calls.isEmpty = false := by
        cases hc : resp.tool_calls with
        | nil => exact absurd hc hte
        | cons a l => rfl
      cases hr : (runToolCalls ts resp.tool_calls).1 with
      | error e =>
        refine Or.inr (Or.inr (Or.inl ⟨resp, e, rfl, hte, hr, ?_⟩))
        unfold chatConAgente
        rw [hm]
        simp only [hbe, Bool.false_eq_true, if_false]
        rw [hr]
      | ok results =>
        cases hm2 : model (augmentedContext (buildContext sp hist u) resp results) with
        | error e =>
          refine Or.inr (Or.inr (Or.inr (Or.inl ⟨resp, results, e, rfl, hte, hr, hm2, ?_⟩)))
          unfold chatConAgente
          rw [hm]
          simp only [hbe, Bool.false_eq_true, if_false]
          simp only [hr]
          rw [hm2]
        | ok resp2 =>
          refine Or.inr (Or.inr (Or.inr (Or.inr ⟨resp, results, resp2, rfl, hte, hr, hm2, ?_⟩)))
          unfold chatConAgente
          rw [hm]
          simp only [hbe, Bool.false_eq_true, if_false]
          simp only [hr]
          rw [hm2]

/-- C1: for every successful resolution cycle, the history grows by
exactly two turns — the user utterance then the final assistant reply, in
that order — and all previously stored turns are unchanged. -/
theorem chat_success_appends_two_turns
    (model : List CtxMsg → Except String Response) (ts : List Tool)
    (sp u reply : String) (hist : List StoredMsg)
    (h : (chatConAgente model ts sp u hist).outcome = Except.ok reply) :
    (chatConAgente model ts sp u hist).history
      = hist ++ [StoredMsg.human u, StoredMsg.ai reply] := by
  rcases chatConAgente_cases model ts sp u hist with
    ⟨e, hm, heq⟩ | ⟨resp, hm, hte, heq⟩ | ⟨resp, e, hm, hte, hr, heq⟩
    | ⟨resp, results, e, hm, hte, hr, hm2, heq⟩
    | ⟨resp, results, resp2, hm, hte, hr, hm2, heq⟩
  · rw [heq] at h; simp at h
  · rw [heq] at h ⊢
    simp at h
    simp [h]
  · rw [heq] at h; simp at h
  · rw [heq] at h; simp at h
  · rw [heq] at h ⊢
    simp at h
    simp [h]

/-- C1 (witness): a concrete successful direct-reply cycle appends the
user turn and the assistant turn to the empty history. -/
theorem chat_success_appends_two_turns_witness :
    (chatConAgente directModel [demoTool] "prompt" "Hola" []).history
      = [] ++ [StoredMsg.human "Hola", StoredMsg.ai "Hola, soy DataBot"] :=
  chat_success_appends_two_turns directModel [demoTool] "prompt" "Hola"
    "Hola, soy DataBot" [] rfl

/-- C3: a resolution cycle in which a step raises leaves the history
exactly as loaded — the two turns are appended only on full success, so no
half-written pair is possible. -/
theorem chat_failure_leaves_history
    (model : List CtxMsg → Except String Response) (ts : List Tool)
    (sp u e : String) (hist : List StoredMsg)
    (h : (chatConAgente model ts sp u hist).outcome = Except.error e) :
    (chatConAgente model ts sp u hist).history = hist := by
  rcases chatConAgente_cases model ts sp u hist with
    ⟨e0, hm, heq⟩ | ⟨resp, hm, hte, heq⟩ | ⟨resp, e0, hm, hte, hr, heq⟩
    | ⟨resp, results, e0, hm, hte, hr, hm2, heq⟩
    | ⟨resp, results, resp2, hm, hte, hr, hm2, heq⟩
  · rw [heq]
  · rw [heq] at h; simp at h
  · rw [heq]
  · rw [heq]
  · rw [heq] at h; simp at h

/-- C3 (witness): a concrete cycle whose model call raises leaves the
two previously stored turns untouched. -/
theorem chat_failure_leaves_history_witness :
    (chatConAgente failModel [demoTool] "prompt" "Hola"
      [StoredMsg.human "a", StoredMsg.ai "b"]).history
      = [StoredMsg.human "a", StoredMsg.ai "b"] :=
  chat_failure_leaves_history failModel [demoTool] "prompt" "Hola"
    "ModelInvocationError" [StoredMsg.human "a", StoredMsg.ai "b"] rfl

/-- C5: when the first completion requests no capability, no capability is
invoked, exactly one model call occurs, and the first completion text is
the final reply. -/
theorem chat_no_tools_single_call
    (model : List CtxMsg → Except String Response) (ts : List Tool)
    (sp u : String) (hist : List StoredMsg) (resp : Response)
    (hm : model (buildContext sp hist u) = Except.ok resp)
    (hte : resp.tool_calls = []) :
    (chatConAgente model ts sp u hist).outcome = Except.ok resp.content ∧
    (chatConAgente model ts sp u hist).modelCalls = 1 ∧
    (chatConAgente model ts sp u hist).invoked = [] := by
  rcases chatConAgente_cases model ts sp u hist with
    ⟨e, hm0, heq⟩ | ⟨resp0, hm0, hte0, heq⟩ | ⟨resp0, e, hm0, hne0, hr, heq⟩
    | ⟨resp0, results, e, hm0, hne0, hr, hm2, heq⟩
    | ⟨resp0, results, resp2, hm0, hne0, hr, hm2, heq⟩
  · rw [hm] at hm0; simp at hm0
  · rw [hm] at hm0
    simp at hm0
    subst hm0
    rw [heq]
    simp
  · rw [hm] at hm0
    simp at hm0
    subst hm0
    exact absurd hte hne0
  · rw [hm] at hm0
    simp at hm0
    subst hm0
    exact absurd hte hne0
  · rw [hm] at hm0
    simp at hm0
    subst hm0
    exact absurd hte hne0

/-- C5 (witness): a concrete direct-reply cycle makes one model call,
invokes nothing, and returns the first completion text. -/
theorem chat_no_tools_single_call_witness :
    (chatConAgente directModel [demoTool] "prompt" "Hola" []).outcome
      = Except.ok directResp.content ∧
    (chatConAgente directModel [demoTool] "prompt" "Hola" []).modelCalls = 1 ∧
    (chatConAgente directModel [demoTool] "prompt" "Hola" []).invoked = [] :=
  chat_no_tools_single_call directModel [demoTool] "prompt" "Hola" []
    directResp rfl rfl

/-- C6: the context submitted for the first completion is exactly the
fixed system instruction, then the stored turns in insertion order each
mapped to their role/content pair, then the new utterance as the final
user turn. -/
theorem chat_first_context_shape
    (model : List CtxMsg → Except String Response) (ts : List Tool)
    (sp u : String) (hist : List StoredMsg) :
    (chatConAgente model ts sp u hist).firstContext
      = CtxMsg.system sp :: hist.filterMap roleContentPair ++ [CtxMsg.user u] := by
  rcases chatConAgente_cases model ts sp u hist with
    ⟨e, hm, heq⟩ | ⟨resp, hm, hte, heq⟩ | ⟨resp, e, hm, hte, hr, heq⟩
    | ⟨resp, results, e, hm, hte, hr, hm2, heq⟩
    | ⟨resp, results, resp2, hm, hte, hr, hm2, heq⟩ <;>
  · rw [heq]
    simp [buildContext_eq]

/-- C8: a malformed resumed-session identifier does not fail the
interaction — validation falls through to the freshly minted identifier. -/
theorem invalid_session_mints_fresh (parse : String → Option Unit)
    (freshId candidate : String) (h : parse candidate = none) :
    elegirSesion parse freshId "2" candidate = freshId := by
  simp [elegirSesion, h]

/-- C8 (witness): a concrete malformed identifier is replaced by the
minted one. -/
theorem invalid_session_mints_fresh_witness :
    elegirSesion noParse "b2c3" "2" "no-es-uuid" = "b2c3" :=
  invalid_session_mints_fresh noParse "b2c3" "no-es-uuid" rfl

/-- C9: history-table initialization never propagates an exception to its
caller, whatever the outcomes of the connection and the creation steps. -/
theorem crear_tabla_never_raises (connect createTables : Except String Unit) :
    (crearTablaHistorial connect createTables).raised = none := by
  cases connect with
  | error e => rfl
  | ok _ =>
    cases createTables with
    | error e => rfl
    | ok _ => rfl

/-- C4: in a successful cycle whose first completion carries invocation
requests, each request is invoked at most once (the performed invocations
form a sublist of the requests), exactly one additional model call is made
after collecting the results — two calls in total regardless of how many
requests there are — and the final reply is the second completion text,
with no re-resolution even if that completion itself requests tools. -/
theorem chat_tool_cycle_two_model_calls
    (model : List CtxMsg → Except String Response) (ts : List Tool)
    (sp u reply : String) (hist : List StoredMsg) (resp : Response)
    (hm : model (buildContext sp hist u) = Except.ok resp)
    (hne : resp.tool_calls ≠ [])
    (h : (chatConAgente model ts sp u hist).outcome = Except.ok reply) :
    (chatConAgente model ts sp u hist).modelCalls = 2 ∧
    List.Sublist (chatConAgente model ts sp u hist).invoked resp.tool_calls ∧
    ∃ results resp2,
      (runToolCalls ts resp.tool_calls).1 = Except.ok results ∧
      model (augmentedContext (buildContext sp hist u) resp results)
        = Except.ok resp2 ∧
      reply = resp2.content := by
  rcases chatConAgente_cases model ts sp u hist with
    ⟨e, hm0, heq⟩ | ⟨resp0, hm0, hte0, heq⟩ | ⟨resp0, e, hm0, hne0, hr, heq⟩
    | ⟨resp0, results, e, hm0, hne0, hr, hm2, heq⟩
    | ⟨resp0, results, resp2, hm0, hne0, hr, hm2, heq⟩
  · rw [hm] at hm0; simp at hm0
  · rw [hm] at hm0
    simp at hm0
    subst hm0
    exact absurd hte0 hne
  · rw [heq] at h; simp at h
  · rw [heq] at h; simp at h
  · rw [hm] at hm0
    simp at hm0
    subst hm0
    rw [heq] at h ⊢
    simp at h
    refine ⟨rfl, runToolCalls_invoked_sublist ts resp.tool_calls, results, resp2, hr, hm2, ?_⟩
    rw [h]

/-- C4 (witness): a concrete cycle with one lookup request makes exactly
two model calls, invokes a sublist of the requests, and replies with the
second completion text. -/
theorem chat_tool_cycle_two_model_calls_witness :
    (chatConAgente demoModel [demoTool] "prompt" "Que cursos tienen" []).modelCalls = 2 ∧
    List.Sublist (chatConAgente demoModel [demoTool] "prompt" "Que cursos tienen" []).invoked
      demoResp1.tool_calls ∧
    ∃ results resp2,
      (runToolCalls [demoTool] demoResp1.tool_calls).1 = Except.ok results ∧
      demoModel (augmentedContext (buildContext "prompt" [] "Que cursos tienen")
          demoResp1 results)
        = Except.ok resp2 ∧
      "Tenemos cursos de IA" = resp2.content :=
  chat_tool_cycle_two_model_calls demoModel [demoTool] "prompt" "Que cursos tienen"
    "Tenemos cursos de IA" [] demoResp1 rfl (by simp [demoResp1]) rfl

/-- C7: whenever a second completion is requested, its context is the
first context, then the assistant turn carrying the first completion with
its invocation requests, then one result turn per performed invocation;
the result turns carry, in order, exactly the correlation identifiers of
the performed invocations, which are requests of the first completion. -/
theorem chat_tool_results_follow_and_correlate
    (model : List CtxMsg → Except String Response) (ts : List Tool)
    (sp u : String) (hist : List StoredMsg) (ctx2 : List CtxMsg)
    (h : (chatConAgente model ts sp u hist).secondContext = some ctx2) :
    ∃ resp results,
      model (buildContext sp hist u) = Except.ok resp ∧
      resp.tool_calls ≠ [] ∧
      (runToolCalls ts resp.tool_calls).1 = Except.ok results ∧
      ctx2 = buildContext sp hist u ++ CtxMsg.aiResponse resp
        :: results.map (fun tr => CtxMsg.toolMsg tr.2 tr.1) ∧
      results.map Prod.fst
        = (chatConAgente model ts sp u hist).invoked.map ToolCall.id ∧
      List.Sublist (chatConAgente model ts sp u hist).invoked resp.tool_calls := by
  rcases chatConAgente_cases model ts sp u hist with
    ⟨e, hm, heq⟩ | ⟨resp, hm, hte, heq⟩ | ⟨resp, e, hm, hte, hr, heq⟩
    | ⟨resp, results, e, hm, hte, hr, hm2, heq⟩
    | ⟨resp, results, resp2, hm, hte, hr, hm2, heq⟩
  · rw [heq] at h; simp at h
  · rw [heq] at h; simp at h
  · rw [heq] at h; simp at h
  · rw [heq] at h ⊢
    simp at h
    refine ⟨resp, results, hm, hte, hr, ?_, ?_, runToolCalls_invoked_sublist ts resp.tool_calls⟩
    · rw [← h]
      simp [augmentedContext]
    · simpa using runToolCalls_ok_ids ts resp.tool_calls results hr
  · rw [heq] at h ⊢
    simp at h
    refine ⟨resp, results, hm, hte, hr, ?_, ?_, runToolCalls_invoked_sublist ts resp.tool_calls⟩
    · rw [← h]
      simp [augmentedContext]
    · simpa using runToolCalls_ok_ids ts resp.tool_calls results hr

/-- C7 (witness): in a concrete cycle the single result turn follows the
assistant turn carrying the request and shares its identifier. -/
theorem chat_tool_results_follow_and_correlate_witness :
    ∃ resp results,
      demoModel (buildContext "prompt" [] "Que cursos tienen") = Except.ok resp ∧
      resp.tool_calls ≠ [] ∧
      (runToolCalls [demoTool] resp.tool_calls).1 = Except.ok results ∧
      [CtxMsg.system "prompt", CtxMsg.user "Que cursos tienen",
        CtxMsg.aiResponse demoResp1,
        CtxMsg.toolMsg "DATAPATH ofrece programas de IA" "call_1"]
        = buildContext "prompt" [] "Que cursos tienen" ++ CtxMsg.aiResponse resp
          :: results.map (fun tr => CtxMsg.toolMsg tr.2 tr.1) ∧
      results.map Prod.fst
        = (chatConAgente demoModel [demoTool] "prompt"
            "Que cursos tienen" []).invoked.map ToolCall.id ∧
      List.Sublist
        (chatConAgente demoModel [demoTool] "prompt" "Que cursos tienen" []).invoked
        resp.tool_calls :=
  chat_tool_results_follow_and_correlate demoModel [demoTool] "prompt"
    "Que cursos tienen" []
    [CtxMsg.system "prompt", CtxMsg.user "Que cursos tienen",
      CtxMsg.aiResponse demoResp1,
      CtxMsg.toolMsg "DATAPATH ofrece programas de IA" "call_1"] rfl

/-- C2 (counterexample): with the registry holding only `buscar_datapath`
and a first completion requesting the unregistered name `tool_desconocida`,
the resolver does not fail — it performs no invocation and returns the
second completion text. -/
theorem unknown_tool_cycle_does_not_fail :
    lookupTool [demoTool] unknownCall.name = none ∧
    (chatConAgente cexModel [demoTool] "prompt" "hola" []).outcome
      = Except.ok "respuesta" ∧
    (chatConAgente cexModel [demoTool] "prompt" "hola" []).invoked = [] :=
  ⟨rfl, rfl, rfl⟩

/-- C2 (amended): an invocation request whose name matches no registry
entry is skipped silently — when no request matches, nothing is invoked,
no result turn is produced, and the resolver proceeds to the second
completion instead of failing. -/
theorem unknown_tools_silently_skipped
    (model : List CtxMsg → Except String Response) (ts : List Tool)
    (sp u : String) (hist : List StoredMsg) (resp : Response)
    (hm : model (buildContext sp hist u) = Except.ok resp)
    (hne : resp.tool_calls ≠ [])
    (hall : ∀ tc ∈ resp.tool_calls, lookupTool ts tc.name = none) :
    (chatConAgente model ts sp u hist).invoked = [] ∧
    (chatConAgente model ts sp u hist).secondContext
      = some (buildContext sp hist u ++ [CtxMsg.aiResponse resp]) := by
  have hrt := runToolCalls_all_unknown ts resp.tool_calls hall
  rcases chatConAgente_cases model ts sp u hist with
    ⟨e, hm0, heq⟩ | ⟨resp0, hm0, hte0, heq⟩ | ⟨resp0, e, hm0, hne0, hr, heq⟩
    | ⟨resp0, results, e, hm0, hne0, hr, hm2, heq⟩
    | ⟨resp0, results, resp2, hm0, hne0, hr, hm2, heq⟩
  · rw [hm] at hm0; simp at hm0
  · rw [hm] at hm0
    simp at hm0
    subst hm0
    exact absurd hte0 hne
  · rw [hm] at hm0
    simp at hm0
    subst hm0
    rw [hrt] at hr
    simp at hr
  · rw [hm] at hm0
    simp at hm0
    subst hm0
    rw [hrt] at hr
    simp at hr
    subst hr
    rw [heq]
    simp [hrt, augmentedContext]
  · rw [hm] at hm0
    simp at hm0
    subst hm0
    rw [hrt] at hr
    simp at hr
    subst hr
    rw [heq]
    simp [hrt, augmentedContext]

/-- C2 (witness for the amended claim): the concrete unknown-name cycle
invokes nothing and submits the second context with no result turn. -/
theorem unknown_tools_silently_skipped_witness :
    (chatConAgente cexModel [demoTool] "prompt" "hola" []).invoked = [] ∧
    (chatConAgente cexModel [demoTool] "prompt" "hola" []).secondContext
      = some (buildContext "prompt" [] "hola" ++ [CtxMsg.aiResponse unknownResp]) :=
  unknown_tools_silently_skipped cexModel [demoTool] "prompt" "hola" []
    unknownResp rfl (by simp [unknownResp])
    (by
      intro tc htc
      have h1 : tc = unknownCall := by simpa [unknownResp] using htc
      rw [h1]
      rfl)

/-- C10: a resolution cycle writes only plain user and assistant text
turns to the store — the assistant turn carrying the requests and the
result turns live only in the cycle's in-memory context — and a stored
message of any other kind is silently omitted when the context is rebuilt
from the store. -/
theorem history_plain_turns_and_rebuild_omits_others
    (model : List CtxMsg → Except String Response) (ts : List Tool)
    (sp u u2 kind c : String) (hist h1 h2 : List StoredMsg) :
    ((chatConAgente model ts sp u hist).history = hist ∨
      ∃ reply, (chatConAgente model ts sp u hist).history
        = hist ++ [StoredMsg.human u, StoredMsg.ai reply]) ∧
    buildContext sp (h1 ++ StoredMsg.other kind c :: h2) u2
      = buildContext sp (h1 ++ h2) u2 := by
  constructor
  · rcases chatConAgente_cases model ts sp u hist with
      ⟨e, hm, heq⟩ | ⟨resp, hm, hte, heq⟩ | ⟨resp, e, hm, hte, hr, heq⟩
      | ⟨resp, results, e, hm, hte, hr, hm2, heq⟩
      | ⟨resp, results, resp2, hm, hte, hr, hm2, heq⟩
    · rw [heq]; exact Or.inl rfl
    · rw [heq]; exact Or.inr ⟨resp.content, rfl⟩
    · rw [heq]; exact Or.inl rfl
    · rw [heq]; exact Or.inl rfl
    · rw [heq]; exact Or.inr ⟨resp2.content, rfl⟩
  · rw [buildContext_eq, buildContext_eq]
    simp [List.filterMap_append, roleContentPair]

end AgenteBasico
